import Mathlib

/-!
Shallow embedding of the cleanliness-audit domain core of the repository
(`backend/src/domain`): value objects (`ConfidenceScore`, `CleanlinessStatus`,
`ImageMetadata`), the vision DTOs (`VisionLabel`, `VisionAnalysisResult`), the
`AuditResult` aggregate and the `CleanlinessEvaluator` domain service, each
translated from the Python source.

Modelling conventions: Python floats are rationals (no claim depends on binary
floating point); `datetime` values and UUIDs are opaque integers / naturals
passed in by the caller (`utcnow` and `uuid4` become explicit parameters);
`Optional[T]` is `Option T`; a Python `set` of strings iterated with `any(...)`
is a list; case folding is the ASCII folding of `Char.toLower` (every string
the rules and tests use is ASCII).
-/

/-- Enumeration `CleanlinessStatus` from `value_objects/cleanliness_status.py`. -/
inductive CleanlinessStatus where
  | CLEAN
  | NOT_CLEAN
  | REQUIRES_MANUAL_REVIEW
  | INSUFFICIENT_DATA
deriving DecidableEq, Repr

/-- Value object `ConfidenceScore` (`value_objects/confidence_score.py`): a
wrapper around the numeric score. The Python float is modelled as a rational. -/
structure ConfidenceScore where
  value : ℚ
deriving DecidableEq, Repr

/-- Method `ConfidenceScore.is_above_threshold`: `self.value >= threshold`. -/
def ConfidenceScore.is_above_threshold (c : ConfidenceScore) (threshold : ℚ) : Bool :=
  c.value ≥ threshold

/-- Rounding to the nearest integer with ties to even, the rounding Python's
fixed-point formatting applies (used by `as_percentage`). -/
def roundHalfEven (q : ℚ) : Int :=
  let f : Int := ⌊q⌋
  if q - f < 1/2 then f
  else if (1 : ℚ)/2 < q - f then f + 1
  else if f % 2 = 0 then f else f + 1

/-- Two-digit zero-padded rendering of a fractional part. -/
def padTwo (n : Nat) : String :=
  if n < 10 then "0" ++ toString n else toString n

/-- Method `ConfidenceScore.as_percentage`: Python `f"{self.value:.2f}%"`. -/
def ConfidenceScore.as_percentage (c : ConfidenceScore) : String :=
  let cents : Int := roundHalfEven (c.value * 100)
  if cents < 0 then
    "-" ++ toString ((-cents) / 100) ++ "." ++ padTwo ((-cents) % 100).toNat ++ "%"
  else
    toString (cents / 100) ++ "." ++ padTwo (cents % 100).toNat ++ "%"

/-- DTO `VisionLabel` from `ports/vision_provider.py`. -/
structure VisionLabel where
  name : String
  confidence : ConfidenceScore
  category : String := "general"
deriving DecidableEq, Repr

/-- DTO `VisionAnalysisResult` from `ports/vision_provider.py`. -/
structure VisionAnalysisResult where
  labels : List VisionLabel
  moderation_labels : Option (List VisionLabel) := none
  text_detections : Option (List String) := none
  provider_name : String := "unknown"
  model_version : String := "unknown"
  processing_time_ms : Int := 0
deriving Repr

/-- Entity `DetectedLabel` from `entities/audit_result.py`. -/
structure DetectedLabel where
  name : String
  confidence : ConfidenceScore
  is_negative : Bool
deriving DecidableEq, Repr

/-- ASCII case folding of a string, the embedding of Python `str.lower()`. -/
def lowerStr (s : String) : String :=
  ⟨s.data.map Char.toLower⟩

/-- Helper for substring containment: does `needle` occur at the head of `hay`? -/
def matchHead : List Char → List Char → Bool
  | _, [] => true
  | [], _ :: _ => false
  | c :: cs, d :: ds => c == d && matchHead cs ds

/-- Contiguous-substring containment on character lists, the embedding of
Python's `needle in hay` on strings (the empty needle is contained). -/
def listSub (needle : List Char) : List Char → Bool
  | [] => needle.isEmpty
  | c :: t => matchHead (c :: t) needle || listSub needle t

/-- Configuration `CleanlinessRules` from `services/cleanliness_evaluator.py`.
The Python `Set[str]` is modelled as a list (it is only iterated with `any`). -/
structure CleanlinessRules where
  negative_labels : List String
  confidence_threshold : ℚ := 80
  max_negative_labels : Int := 0
  require_review_on_low_confidence : Bool := true
deriving Repr

/-- Default negative labels installed by `CleanlinessRules.__post_init__`
when none are provided. -/
def defaultNegativeLabels : List String :=
  ["Dirt", "Mud", "Debris", "Trash", "Garbage", "Litter",
   "Waste", "Rubbish", "Clutter", "Mess",
   "Stain", "Graffiti", "Rust", "Corrosion", "Mold", "Mildew",
   "Decay", "Deterioration",
   "Insect", "Bug", "Rodent", "Pest", "Spider Web",
   "Disorder", "Disorganized", "Untidy", "Unkempt",
   "Spill", "Leak", "Broken Glass", "Sharp Object"]

/-- Construction of `CleanlinessRules` including `__post_init__`: a `None`
label set is replaced by the default set. -/
def mkCleanlinessRules (negative_labels : Option (List String)) (confidence_threshold : ℚ)
    (max_negative_labels : Int) (require_review_on_low_confidence : Bool) : CleanlinessRules :=
  { negative_labels := negative_labels.getD defaultNegativeLabels,
    confidence_threshold := confidence_threshold,
    max_negative_labels := max_negative_labels,
    require_review_on_low_confidence := require_review_on_low_confidence }

/-- Value object `ImageMetadata` from `value_objects/image_metadata.py`.
Timestamps and the UUID are opaque numbers. -/
structure ImageMetadata where
  image_id : Nat
  dealer_id : String
  checkpoint_id : String
  s3_bucket : String
  s3_key : String
  uploader_id : String
  captured_at : Int
  uploaded_at : Int
  file_size_bytes : Int
  content_type : String := "image/jpeg"
  width_px : Option Int := none
  height_px : Option Int := none
deriving DecidableEq, Repr

/-- Method `ImageMetadata.is_valid_for_analysis`. The Python guard
`if self.width_px and self.height_px:` is truthiness: the resolution check runs
only when both dimensions are non-`None` AND nonzero. -/
def ImageMetadata.is_valid_for_analysis (m : ImageMetadata) : Bool :=
  if m.file_size_bytes > 15 * 1024 * 1024 then false
  else
    match m.width_px, m.height_px with
    | some w, some h =>
      if w != 0 && h != 0 then
        if w < 640 || h < 480 then false else true
      else true
    | _, _ => true

/-- Entity `AuditResult` from `entities/audit_result.py`. The `reason` field is
`Optional[str]` in the source; construction (`__post_init__`) always fills it. -/
structure AuditResult where
  image_metadata : ImageMetadata
  detected_labels : List DetectedLabel
  overall_confidence : ConfidenceScore
  status : CleanlinessStatus
  audit_id : Nat
  negative_labels : List DetectedLabel
  reason : Option String
  analyzed_at : Int
  reviewed_by : Option String
  reviewed_at : Option Int
  manual_override : Option Bool
  vision_provider : String
  model_version : Option String
deriving Repr

/-- Method `AuditResult._generate_reason`, as a function of the fields it
reads (`status`, `overall_confidence`, `negative_labels`). -/
def AuditResult.generate_reason (status : CleanlinessStatus)
    (overall_confidence : ConfidenceScore) (negative_labels : List DetectedLabel) : String :=
  if status = CleanlinessStatus.CLEAN then "No cleanliness issues detected"
  else if status = CleanlinessStatus.INSUFFICIENT_DATA then
    "Confidence too low (" ++ overall_confidence.as_percentage ++ ")"
  else if status = CleanlinessStatus.REQUIRES_MANUAL_REVIEW then
    "Unclear results - manual review required"
  else if !negative_labels.isEmpty then
    "Issues detected: " ++ String.intercalate ", " ((negative_labels.take 3).map (fun l => l.name))
  else "Status determination unclear"

/-- Construction of an `AuditResult` including `__post_init__`: whatever
`negative_labels` argument is supplied, the field is recomputed as the filter
of `detected_labels` on `is_negative`; a `None` or empty `reason` (Python
`if not self.reason`) is replaced by the generated one. -/
def mkAuditResult (image_metadata : ImageMetadata) (detected_labels : List DetectedLabel)
    (overall_confidence : ConfidenceScore) (status : CleanlinessStatus) (audit_id : Nat)
    ( _negative_labels_arg : List DetectedLabel) (reason_arg : Option String)
    (analyzed_at : Int) (reviewed_by : Option String) (reviewed_at : Option Int)
    (manual_override : Option Bool) (vision_provider : String)
    (model_version : Option String) : AuditResult :=
  let negative_labels := detected_labels.filter (fun l => l.is_negative)
  let reason :=
    match reason_arg with
    | none => AuditResult.generate_reason status overall_confidence negative_labels
    | some r =>
      if r = "" then AuditResult.generate_reason status overall_confidence negative_labels
      else r
  { image_metadata := image_metadata, detected_labels := detected_labels,
    overall_confidence := overall_confidence, status := status, audit_id := audit_id,
    negative_labels := negative_labels, reason := some reason, analyzed_at := analyzed_at,
    reviewed_by := reviewed_by, reviewed_at := reviewed_at,
    manual_override := manual_override, vision_provider := vision_provider,
    model_version := model_version }

/-- Method `AuditResult.apply_manual_override`; `datetime.utcnow()` is the
explicit `now` parameter. -/
def AuditResult.apply_manual_override (a : AuditResult) (reviewer_id : String)
    (is_clean : Bool) (notes : String) (now : Int) : AuditResult :=
  { a with
    manual_override := some is_clean,
    status := if is_clean then CleanlinessStatus.CLEAN else CleanlinessStatus.NOT_CLEAN,
    reviewed_by := some reviewer_id,
    reviewed_at := some now,
    reason := some ("Manual override: " ++ notes) }

/-- Method `AuditResult.is_finalized`: `self.reviewed_by is not None`. -/
def AuditResult.is_finalized (a : AuditResult) : Bool :=
  a.reviewed_by.isSome

/-- Method `CleanlinessEvaluator._is_negative_label`: case-insensitive
substring matching of any rule negative term inside the label name. -/
def CleanlinessEvaluator.is_negative_label (rules : CleanlinessRules) (label_name : String) : Bool :=
  rules.negative_labels.any (fun neg => listSub (lowerStr neg).data (lowerStr label_name).data)

/-- Method `CleanlinessEvaluator._convert_labels`. -/
def CleanlinessEvaluator.convert_labels (rules : CleanlinessRules)
    (vision_labels : List VisionLabel) : List DetectedLabel :=
  vision_labels.map (fun label =>
    { name := label.name, confidence := label.confidence,
      is_negative := CleanlinessEvaluator.is_negative_label rules label.name })

/-- Method `CleanlinessEvaluator._identify_negative_labels`. -/
def CleanlinessEvaluator.identify_negative_labels (labels : List DetectedLabel) :
    List DetectedLabel :=
  labels.filter (fun label => label.is_negative)

/-- Stable descending insertion by confidence value: the inserted element goes
after every element of strictly larger key and before the rest, so equal keys
keep their original order, as Python's stable `sorted(..., reverse=True)` does. -/
def insertDesc (x : DetectedLabel) : List DetectedLabel → List DetectedLabel
  | [] => [x]
  | y :: ys =>
    if x.confidence.value < y.confidence.value then y :: insertDesc x ys
    else x :: y :: ys

/-- Stable sort of labels by confidence descending, the embedding of
`sorted(labels, key=lambda x: x.confidence.value, reverse=True)`. -/
def sortDesc : List DetectedLabel → List DetectedLabel
  | [] => []
  | x :: xs => insertDesc x (sortDesc xs)

/-- Method `CleanlinessEvaluator._calculate_overall_confidence`: average of
the confidences of the top 5 labels after sorting by confidence descending;
`0.0` when there are no labels. -/
def CleanlinessEvaluator.calculate_overall_confidence (labels : List DetectedLabel) :
    ConfidenceScore :=
  if labels.isEmpty then { value := 0 }
  else
    let top_labels := (sortDesc labels).take 5
    { value := (top_labels.map (fun l => l.confidence.value)).sum / (top_labels.length : ℚ) }

/-- Method `CleanlinessEvaluator._determine_status`: the ordered decision tree
(manual override, low confidence, count above maximum, any negative label). -/
def CleanlinessEvaluator.determine_status (rules : CleanlinessRules)
    (negative_labels : List DetectedLabel) (overall_confidence : ConfidenceScore)
    (manual_override : Option Bool) : CleanlinessStatus :=
  match manual_override with
  | some b => if b then CleanlinessStatus.CLEAN else CleanlinessStatus.NOT_CLEAN
  | none =>
    if !(overall_confidence.is_above_threshold rules.confidence_threshold) then
      if rules.require_review_on_low_confidence then CleanlinessStatus.REQUIRES_MANUAL_REVIEW
      else CleanlinessStatus.INSUFFICIENT_DATA
    else if (negative_labels.length : Int) > rules.max_negative_labels then
      CleanlinessStatus.NOT_CLEAN
    else if !negative_labels.isEmpty then CleanlinessStatus.NOT_CLEAN
    else CleanlinessStatus.CLEAN

/-- Method `CleanlinessEvaluator.evaluate`: convert, aggregate, filter, decide,
construct. `uuid4()` and `datetime.utcnow()` of the constructed entity are the
explicit `audit_id` and `analyzed_at` parameters. -/
def CleanlinessEvaluator.evaluate (rules : CleanlinessRules)
    (vision_result : VisionAnalysisResult) (image_metadata : ImageMetadata)
    (manual_override : Option Bool) (audit_id : Nat) (analyzed_at : Int) : AuditResult :=
  let detected_labels := CleanlinessEvaluator.convert_labels rules vision_result.labels
  let overall_confidence := CleanlinessEvaluator.calculate_overall_confidence detected_labels
  let negative_labels := CleanlinessEvaluator.identify_negative_labels detected_labels
  let status := CleanlinessEvaluator.determine_status rules negative_labels
    overall_confidence manual_override
  mkAuditResult image_metadata detected_labels overall_confidence status audit_id
    negative_labels none analyzed_at none none manual_override
    vision_result.provider_name (some vision_result.model_version)

/-! Concrete fixtures used by the closed counterexamples and witnesses. -/

/-- Metadata fixture: a small valid image. -/
def sampleMeta : ImageMetadata :=
  { image_id := 0, dealer_id := "dealer-1", checkpoint_id := "entrance",
    s3_bucket := "bucket", s3_key := "key.jpg", uploader_id := "user-1",
    captured_at := 0, uploaded_at := 0, file_size_bytes := 100 }

/-- Rules fixture tolerating up to 2 negative labels (threshold 0 so the
confidence rule never fires). -/
def rulesDirtK2 : CleanlinessRules :=
  { negative_labels := ["dirt"], confidence_threshold := 0,
    max_negative_labels := 2, require_review_on_low_confidence := true }

/-- Vision fixture: one negative label, high confidence. -/
def vrDirt90 : VisionAnalysisResult :=
  { labels := [{ name := "Dirt", confidence := { value := 90 } }] }

/-- Rules fixture with threshold 80 routing low confidence to manual review. -/
def rulesCarReview : CleanlinessRules :=
  { negative_labels := ["dirt"], confidence_threshold := 80,
    max_negative_labels := 0, require_review_on_low_confidence := true }

/-- Rules fixture with threshold 80 routing low confidence to insufficient data. -/
def rulesCarNoReview : CleanlinessRules :=
  { negative_labels := ["dirt"], confidence_threshold := 80,
    max_negative_labels := 0, require_review_on_low_confidence := false }

/-- Vision fixture: one non-negative label of confidence 40. -/
def vrCar40 : VisionAnalysisResult :=
  { labels := [{ name := "Car", confidence := { value := 40 } }] }

/-- Default rules (all defaults of `CleanlinessRules`). -/
def defaultRules : CleanlinessRules := mkCleanlinessRules none 80 0 true

/-- Vision fixture with no detections. -/
def vrEmpty : VisionAnalysisResult := { labels := [] }

/-- Labels fixture of the spec's aggregation example: confidences
95, 90, 85, 80, 75, 10. -/
def c4ExampleLabels : List DetectedLabel :=
  [⟨"A", ⟨95⟩, false⟩, ⟨"B", ⟨90⟩, false⟩, ⟨"C", ⟨85⟩, false⟩,
   ⟨"D", ⟨80⟩, false⟩, ⟨"E", ⟨75⟩, false⟩, ⟨"F", ⟨10⟩, false⟩]

/-! Helper lemmas about the stable descending sort. -/

/-- Inserting permutes: `insertDesc x l` has the members of `x :: l`. -/
lemma insertDesc_perm (x : DetectedLabel) (l : List DetectedLabel) :
    (insertDesc x l).Perm (x :: l) := by
  induction l with
  | nil => simp [insertDesc]
  | cons y ys ih =>
    by_cases hc : x.confidence.value < y.confidence.value
    · simp only [insertDesc, if_pos hc]
      exact (ih.cons y).trans (List.Perm.swap x y ys)
    · simp [insertDesc, if_neg hc]

/-- Sorting permutes the input list. -/
lemma sortDesc_perm (l : List DetectedLabel) : (sortDesc l).Perm l := by
  induction l with
  | nil => simp [sortDesc]
  | cons x xs ih => exact (insertDesc_perm x (sortDesc xs)).trans (ih.cons x)

/-- Inserting preserves the descending pairwise order. -/
lemma insertDesc_pairwise (x : DetectedLabel) (l : List DetectedLabel)
    (h : l.Pairwise (fun a b => b.confidence.value ≤ a.confidence.value)) :
    (insertDesc x l).Pairwise (fun a b => b.confidence.value ≤ a.confidence.value) := by
  induction l with
  | nil => simp [insertDesc]
  | cons y ys ih =>
    rcases List.pairwise_cons.mp h with ⟨hy, hys⟩
    by_cases hc : x.confidence.value < y.confidence.value
    · simp only [insertDesc, if_pos hc]
      refine List.Pairwise.cons ?_ (ih hys)
      intro z hz
      rcases List.mem_cons.mp ((insertDesc_perm x ys).mem_iff.mp hz) with rfl | hzys
      · exact le_of_lt hc
      · exact hy z hzys
    · simp only [insertDesc, if_neg hc]
      push_neg at hc
      refine List.Pairwise.cons ?_ h
      intro z hz
      rcases List.mem_cons.mp hz with rfl | hzys
      · exact hc
      · exact le_trans (hy z hzys) hc

/-- The sorted list is descending in confidence value. -/
lemma sortDesc_pairwise (l : List DetectedLabel) :
    (sortDesc l).Pairwise (fun a b => b.confidence.value ≤ a.confidence.value) := by
  induction l with
  | nil => simp [sortDesc]
  | cons x xs ih => exact insertDesc_pairwise x (sortDesc xs) ih

/-- Every label kept among the first `n` sorted labels has confidence at least
that of every label dropped after position `n`. -/
lemma sortDesc_take_ge_drop (l : List DetectedLabel) (n : Nat) :
    ∀ a ∈ (sortDesc l).take n, ∀ b ∈ (sortDesc l).drop n,
      b.confidence.value ≤ a.confidence.value := by
  have h := sortDesc_pairwise l
  rw [← List.take_append_drop n (sortDesc l)] at h
  exact (List.pairwise_append.mp h).2.2

/-- The status of an evaluation is the decision-tree verdict on the converted
labels: projection of `CleanlinessEvaluator.evaluate`. -/
lemma evaluate_status (rules : CleanlinessRules) (vr : VisionAnalysisResult)
    (m : ImageMetadata) (mo : Option Bool) (aid : Nat) (t : Int) :
    (CleanlinessEvaluator.evaluate rules vr m mo aid t).status =
      CleanlinessEvaluator.determine_status rules
        (CleanlinessEvaluator.identify_negative_labels
          (CleanlinessEvaluator.convert_labels rules vr.labels))
        (CleanlinessEvaluator.calculate_overall_confidence
          (CleanlinessEvaluator.convert_labels rules vr.labels)) mo := rfl

/-- C1: for every rules configuration, vision result and image metadata (and
any generated id/timestamp), `evaluate` with `manual_override = true` yields
status `CLEAN` and with `manual_override = false` yields `NOT_CLEAN`,
regardless of labels, negative-label count and aggregate confidence. -/
theorem c1_manual_override_forces_status (rules : CleanlinessRules)
    (vr : VisionAnalysisResult) (m : ImageMetadata) (aid : Nat) (t : Int) :
    (CleanlinessEvaluator.evaluate rules vr m (some true) aid t).status =
      CleanlinessStatus.CLEAN ∧
    (CleanlinessEvaluator.evaluate rules vr m (some false) aid t).status =
      CleanlinessStatus.NOT_CLEAN :=
  ⟨rfl, rfl⟩

/-- C4: the aggregate confidence is 0 on the empty label list; on a non-empty
list it is the arithmetic mean of the confidences of the at most 5 labels kept
after sorting by confidence descending (the sorted list is a permutation of
the input and every kept label's confidence dominates every dropped one's);
on the [95, 90, 85, 80, 75, 10] example it is exactly 85. -/
theorem c4_confidence_aggregation :
    CleanlinessEvaluator.calculate_overall_confidence [] = ⟨0⟩ ∧
    (∀ labels : List DetectedLabel, labels ≠ [] →
      (CleanlinessEvaluator.calculate_overall_confidence labels).value =
        (((sortDesc labels).take 5).map (fun l => l.confidence.value)).sum
          / (((sortDesc labels).take 5).length : ℚ) ∧
      (sortDesc labels).Perm labels ∧
      ∀ a ∈ (sortDesc labels).take 5, ∀ b ∈ (sortDesc labels).drop 5,
        b.confidence.value ≤ a.confidence.value) ∧
    (CleanlinessEvaluator.calculate_overall_confidence c4ExampleLabels).value = 85 := by
  refine ⟨rfl, ?_, ?_⟩
  · intro labels hne
    refine ⟨?_, sortDesc_perm labels, sortDesc_take_ge_drop labels 5⟩
    simp [CleanlinessEvaluator.calculate_overall_confidence,
      List.isEmpty_iff, hne]
  · simp [CleanlinessEvaluator.calculate_overall_confidence, c4ExampleLabels,
      sortDesc, insertDesc]
    norm_num

/-- Witness for C4: the non-empty case instantiated at the spec's example
list; the sorted list is a permutation of it. -/
theorem c4_witness : (sortDesc c4ExampleLabels).Perm c4ExampleLabels :=
  (c4_confidence_aggregation.2.1 c4ExampleLabels (by simp [c4ExampleLabels])).2.1

/-- C2 counterexample: with `max_negative_labels = 2`, a confident evaluation
carrying exactly one negative label (1 ≤ 2, within the claimed tolerance) is
still graded `NOT_CLEAN`, by the rule firing on any nonzero count. -/
theorem c2_counterexample :
    rulesDirtK2.max_negative_labels = 2 ∧
    (CleanlinessEvaluator.identify_negative_labels
      (CleanlinessEvaluator.convert_labels rulesDirtK2 vrDirt90.labels)).length = 1 ∧
    (CleanlinessEvaluator.calculate_overall_confidence
        (CleanlinessEvaluator.convert_labels rulesDirtK2 vrDirt90.labels)).is_above_threshold
      rulesDirtK2.confidence_threshold = true ∧
    (CleanlinessEvaluator.evaluate rulesDirtK2 vrDirt90 sampleMeta none 0 0).status =
      CleanlinessStatus.NOT_CLEAN := by
  refine ⟨rfl, by decide, ?_, ?_⟩
  · simp [CleanlinessEvaluator.calculate_overall_confidence,
      CleanlinessEvaluator.convert_labels, CleanlinessEvaluator.is_negative_label,
      ConfidenceScore.is_above_threshold, rulesDirtK2, vrDirt90, sortDesc, insertDesc]
  · rw [evaluate_status]
    simp [CleanlinessEvaluator.determine_status,
      CleanlinessEvaluator.calculate_overall_confidence,
      CleanlinessEvaluator.identify_negative_labels,
      CleanlinessEvaluator.convert_labels, CleanlinessEvaluator.is_negative_label,
      ConfidenceScore.is_above_threshold, rulesDirtK2, vrDirt90,
      sortDesc, insertDesc, lowerStr, listSub, matchHead]

/-- C2 amended: when no manual override is given and the aggregate confidence
meets the threshold, a nonzero negative-label count is never tolerated: a count
above `max_negative_labels` is `NOT_CLEAN` by the count rule, and a nonzero
count at most `max_negative_labels` is still `NOT_CLEAN` by the subsequent
any-negative rule (which is therefore reachable exactly when
`max_negative_labels > 0`, not only when it is 0); with a non-negative
maximum the status is `NOT_CLEAN` precisely for a nonzero count. -/
theorem c2_nonzero_negatives_never_tolerated (rules : CleanlinessRules)
    (neg : List DetectedLabel) (conf : ConfidenceScore)
    (h : conf.is_above_threshold rules.confidence_threshold = true) :
    (0 ≤ rules.max_negative_labels →
      ((CleanlinessEvaluator.determine_status rules neg conf none =
          CleanlinessStatus.NOT_CLEAN) ↔ neg ≠ []) ∧
      ((CleanlinessEvaluator.determine_status rules neg conf none =
          CleanlinessStatus.CLEAN) ↔ neg = [])) ∧
    ((neg.length : Int) > rules.max_negative_labels →
      CleanlinessEvaluator.determine_status rules neg conf none =
        CleanlinessStatus.NOT_CLEAN) ∧
    (neg ≠ [] → (neg.length : Int) ≤ rules.max_negative_labels →
      CleanlinessEvaluator.determine_status rules neg conf none =
        CleanlinessStatus.NOT_CLEAN) := by
  cases neg with
  | nil =>
    refine ⟨?_, ?_, fun hne _ => absurd rfl hne⟩
    · intro hmax
      have h0 : ¬ (rules.max_negative_labels < (0 : Int)) := by omega
      have hc : CleanlinessEvaluator.determine_status rules [] conf none =
          CleanlinessStatus.CLEAN := by
        simp [CleanlinessEvaluator.determine_status, h, h0]
      simp [hc]
    · intro hgt
      have hneg : rules.max_negative_labels < 0 := by simpa using hgt
      simp [CleanlinessEvaluator.determine_status, h, hneg]
  | cons a l =>
    have hNC : CleanlinessEvaluator.determine_status rules (a :: l) conf none =
        CleanlinessStatus.NOT_CLEAN := by
      simp [CleanlinessEvaluator.determine_status, h]
    exact ⟨fun _ => ⟨by simp [hNC], by simp [hNC]⟩, fun _ => hNC, fun _ _ => hNC⟩

/-- Witness for C2's amended theorem: rules tolerating 2 negatives, one
negative label of confidence 90, threshold met — `NOT_CLEAN` nonetheless. -/
theorem c2_witness :
    CleanlinessEvaluator.determine_status rulesDirtK2 [⟨"Dirt", ⟨90⟩, true⟩] ⟨90⟩ none =
      CleanlinessStatus.NOT_CLEAN :=
  (c2_nonzero_negatives_never_tolerated rulesDirtK2 [⟨"Dirt", ⟨90⟩, true⟩] ⟨90⟩
    (by decide)).2.2 (by decide) (by decide)

/-- C3: for every evaluation with no manual override, an aggregate confidence
strictly below the threshold routes to `REQUIRES_MANUAL_REVIEW` or
`INSUFFICIENT_DATA` per the flag; confidence exactly at the threshold never
triggers this rule (the verdict is then `CLEAN` or `NOT_CLEAN`), because the
score's comparison is `value >= threshold`. -/
theorem c3_low_confidence_routing (rules : CleanlinessRules)
    (vr : VisionAnalysisResult) (m : ImageMetadata) (aid : Nat) (t : Int) :
    ((CleanlinessEvaluator.calculate_overall_confidence
        (CleanlinessEvaluator.convert_labels rules vr.labels)).value <
          rules.confidence_threshold →
      (CleanlinessEvaluator.evaluate rules vr m none aid t).status =
        (if rules.require_review_on_low_confidence then
          CleanlinessStatus.REQUIRES_MANUAL_REVIEW
         else CleanlinessStatus.INSUFFICIENT_DATA)) ∧
    ((CleanlinessEvaluator.calculate_overall_confidence
        (CleanlinessEvaluator.convert_labels rules vr.labels)).value =
          rules.confidence_threshold →
      (CleanlinessEvaluator.evaluate rules vr m none aid t).status ≠
        CleanlinessStatus.REQUIRES_MANUAL_REVIEW ∧
      (CleanlinessEvaluator.evaluate rules vr m none aid t).status ≠
        CleanlinessStatus.INSUFFICIENT_DATA) ∧
    (∀ c : ConfidenceScore, ∀ th : ℚ,
      (c.is_above_threshold th = true ↔ th ≤ c.value)) := by
  refine ⟨?_, ?_, ?_⟩
  · intro hlt
    rw [evaluate_status]
    have hfalse : (CleanlinessEvaluator.calculate_overall_confidence
        (CleanlinessEvaluator.convert_labels rules vr.labels)).is_above_threshold
        rules.confidence_threshold = false := by
      simp [ConfidenceScore.is_above_threshold]
      linarith
    simp only [CleanlinessEvaluator.determine_status, hfalse, Bool.not_false, if_true]
  · intro heq
    rw [evaluate_status]
    have htrue : (CleanlinessEvaluator.calculate_overall_confidence
        (CleanlinessEvaluator.convert_labels rules vr.labels)).is_above_threshold
        rules.confidence_threshold = true := by
      simp [ConfidenceScore.is_above_threshold, heq]
    simp only [CleanlinessEvaluator.determine_status, htrue, Bool.not_true,
      Bool.false_eq_true, if_false]
    split
    · exact ⟨by simp, by simp⟩
    · split
      · exact ⟨by simp, by simp⟩
      · exact ⟨by simp, by simp⟩
  · intro c th
    simp [ConfidenceScore.is_above_threshold]

/-- Witness for C3: the spec's low-confidence scenario, label "Car" at
confidence 40 against threshold 80, for both settings of the review flag. -/
theorem c3_witness :
    (CleanlinessEvaluator.evaluate rulesCarReview vrCar40 sampleMeta none 0 0).status =
      CleanlinessStatus.REQUIRES_MANUAL_REVIEW ∧
    (CleanlinessEvaluator.evaluate rulesCarNoReview vrCar40 sampleMeta none 0 0).status =
      CleanlinessStatus.INSUFFICIENT_DATA := by
  have hlt1 : (CleanlinessEvaluator.calculate_overall_confidence
      (CleanlinessEvaluator.convert_labels rulesCarReview vrCar40.labels)).value <
        rulesCarReview.confidence_threshold := by
    simp [CleanlinessEvaluator.calculate_overall_confidence,
      CleanlinessEvaluator.convert_labels, CleanlinessEvaluator.is_negative_label,
      rulesCarReview, vrCar40, sortDesc, insertDesc, lowerStr, listSub, matchHead]
    norm_num
  have hlt2 : (CleanlinessEvaluator.calculate_overall_confidence
      (CleanlinessEvaluator.convert_labels rulesCarNoReview vrCar40.labels)).value <
        rulesCarNoReview.confidence_threshold := by
    simp [CleanlinessEvaluator.calculate_overall_confidence,
      CleanlinessEvaluator.convert_labels, CleanlinessEvaluator.is_negative_label,
      rulesCarNoReview, vrCar40, sortDesc, insertDesc, lowerStr, listSub, matchHead]
    norm_num
  refine ⟨?_, ?_⟩
  · rw [(c3_low_confidence_routing rulesCarReview vrCar40 sampleMeta 0 0).1 hlt1]
    rfl
  · rw [(c3_low_confidence_routing rulesCarNoReview vrCar40 sampleMeta 0 0).1 hlt2]
    rfl

/-- Filtering converted labels on the stored `is_negative` flag agrees with
filtering on the rule-matching predicate applied to the label name. -/
lemma convert_filter (rules : CleanlinessRules) (ls : List VisionLabel) :
    (CleanlinessEvaluator.convert_labels rules ls).filter (fun l => l.is_negative) =
      (CleanlinessEvaluator.convert_labels rules ls).filter
        (fun l => CleanlinessEvaluator.is_negative_label rules l.name) := by
  induction ls with
  | nil => rfl
  | cons x xs ih =>
    simp only [CleanlinessEvaluator.convert_labels, List.map_cons, List.filter_cons] at *
    cases hb : CleanlinessEvaluator.is_negative_label rules x.name <;> simp [hb, ih]

/-- C5: evaluation converts each `VisionLabel` to a `DetectedLabel` keeping its
name and confidence and flagging it negative by case-insensitive containment
of some configured term; `negative_labels` is exactly the filter of
`detected_labels` under that predicate, a sublist of `detected_labels` (so a
label matched by several terms appears once per occurrence). -/
theorem c5_negative_label_selection (rules : CleanlinessRules)
    (vr : VisionAnalysisResult) (m : ImageMetadata) (aid : Nat) (t : Int) :
    (CleanlinessEvaluator.evaluate rules vr m none aid t).detected_labels =
      vr.labels.map (fun label =>
        { name := label.name, confidence := label.confidence,
          is_negative := CleanlinessEvaluator.is_negative_label rules label.name }) ∧
    (CleanlinessEvaluator.evaluate rules vr m none aid t).negative_labels =
      (CleanlinessEvaluator.evaluate rules vr m none aid t).detected_labels.filter
        (fun l => CleanlinessEvaluator.is_negative_label rules l.name) ∧
    ((CleanlinessEvaluator.evaluate rules vr m none aid t).negative_labels).Sublist
      (CleanlinessEvaluator.evaluate rules vr m none aid t).detected_labels ∧
    (∀ name : String, CleanlinessEvaluator.is_negative_label rules name = true ↔
      ∃ neg ∈ rules.negative_labels,
        listSub (lowerStr neg).data (lowerStr name).data = true) := by
  refine ⟨rfl, ?_, ?_, ?_⟩
  · exact convert_filter rules vr.labels
  · show ((CleanlinessEvaluator.convert_labels rules vr.labels).filter
      (fun l => l.is_negative)).Sublist (CleanlinessEvaluator.convert_labels rules vr.labels)
    exact List.filter_sublist _
  · intro name
    simp [CleanlinessEvaluator.is_negative_label, List.any_eq_true]

/-- C6 counterexample: an override supplied through `evaluate`'s
`manual_override` argument does NOT produce the "Manual override: <notes>"
reason; the reason is the status-derived auto-generated message (here the
`CLEAN` message), which does not even contain "manual override". -/
theorem c6_counterexample :
    (CleanlinessEvaluator.evaluate defaultRules vrEmpty sampleMeta
      (some true) 0 0).manual_override = some true ∧
    (CleanlinessEvaluator.evaluate defaultRules vrEmpty sampleMeta
      (some true) 0 0).reason = some "No cleanliness issues detected" ∧
    listSub (lowerStr "manual override").data
      (lowerStr "No cleanliness issues detected").data = false :=
  ⟨rfl, by decide, by decide⟩

/-- C6 amended: only `apply_manual_override` overwrites the reason with the
explicit "Manual override: <notes>" message; when the override is supplied as
`evaluate`'s argument, the reason is the auto-generated message derived from
the forced status (for an override of true, the fixed `CLEAN` message). -/
theorem c6_override_reason_paths (a : AuditResult) (reviewer_id : String)
    (is_clean : Bool) (notes : String) (now : Int) (rules : CleanlinessRules)
    (vr : VisionAnalysisResult) (m : ImageMetadata) (b : Bool) (aid : Nat) (t : Int) :
    (a.apply_manual_override reviewer_id is_clean notes now).reason =
      some ("Manual override: " ++ notes) ∧
    (CleanlinessEvaluator.evaluate rules vr m (some b) aid t).reason =
      some (AuditResult.generate_reason
        (if b then CleanlinessStatus.CLEAN else CleanlinessStatus.NOT_CLEAN)
        (CleanlinessEvaluator.calculate_overall_confidence
          (CleanlinessEvaluator.convert_labels rules vr.labels))
        ((CleanlinessEvaluator.convert_labels rules vr.labels).filter
          (fun l => l.is_negative))) ∧
    (CleanlinessEvaluator.evaluate rules vr m (some true) aid t).reason =
      some "No cleanliness issues detected" :=
  ⟨rfl, rfl, rfl⟩

/-- C8: `apply_manual_override` records the override flag, forces the status
per `is_clean`, stamps reviewer and time, overwrites the reason with the
notes-derived message, and finalizes the audit; `is_finalized` is true exactly
when a reviewer id has been recorded. -/
theorem c8_apply_manual_override_effects (a : AuditResult) (reviewer_id : String)
    (is_clean : Bool) (notes : String) (now : Int) :
    (a.apply_manual_override reviewer_id is_clean notes now).manual_override =
      some is_clean ∧
    (a.apply_manual_override reviewer_id is_clean notes now).status =
      (if is_clean then CleanlinessStatus.CLEAN else CleanlinessStatus.NOT_CLEAN) ∧
    (a.apply_manual_override reviewer_id is_clean notes now).reviewed_by =
      some reviewer_id ∧
    (a.apply_manual_override reviewer_id is_clean notes now).reviewed_at = some now ∧
    (a.apply_manual_override reviewer_id is_clean notes now).reason =
      some ("Manual override: " ++ notes) ∧
    (a.apply_manual_override reviewer_id is_clean notes now).is_finalized = true ∧
    (a.is_finalized = true ↔ a.reviewed_by ≠ none) := by
  refine ⟨rfl, rfl, rfl, rfl, rfl, rfl, ?_⟩
  cases h : a.reviewed_by <;> simp [AuditResult.is_finalized, h]

/-- C10: `apply_manual_override` leaves every field other than the override
flag, status, reviewer id, review time and reason unchanged. -/
theorem c10_override_frame (a : AuditResult) (reviewer_id : String) (is_clean : Bool)
    (notes : String) (now : Int) :
    (a.apply_manual_override reviewer_id is_clean notes now).audit_id = a.audit_id ∧
    (a.apply_manual_override reviewer_id is_clean notes now).image_metadata =
      a.image_metadata ∧
    (a.apply_manual_override reviewer_id is_clean notes now).detected_labels =
      a.detected_labels ∧
    (a.apply_manual_override reviewer_id is_clean notes now).negative_labels =
      a.negative_labels ∧
    (a.apply_manual_override reviewer_id is_clean notes now).overall_confidence =
      a.overall_confidence ∧
    (a.apply_manual_override reviewer_id is_clean notes now).analyzed_at =
      a.analyzed_at ∧
    (a.apply_manual_override reviewer_id is_clean notes now).vision_provider =
      a.vision_provider ∧
    (a.apply_manual_override reviewer_id is_clean notes now).model_version =
      a.model_version :=
  ⟨rfl, rfl, rfl, rfl, rfl, rfl, rfl, rfl⟩

/-- Metadata fixture for C9: a small image whose width is recorded as 0. -/
def zeroWidthMeta : ImageMetadata :=
  { image_id := 0, dealer_id := "d", checkpoint_id := "c", s3_bucket := "b",
    s3_key := "k", uploader_id := "u", captured_at := 0, uploaded_at := 0,
    file_size_bytes := 100, width_px := some 0, height_px := some 480 }

/-- C9 counterexample: both dimensions are known, the width (0) is below 640
and the size is within bounds, yet `is_valid_for_analysis` returns true — the
Python truthiness guard skips the resolution check when a dimension is 0. -/
theorem c9_counterexample :
    zeroWidthMeta.width_px = some 0 ∧ zeroWidthMeta.height_px = some 480 ∧
    zeroWidthMeta.file_size_bytes ≤ 15 * 1024 * 1024 ∧ ((0 : Int) < 640) ∧
    zeroWidthMeta.is_valid_for_analysis = true := by decide

/-- C9 amended: `is_valid_for_analysis` is false exactly when the size exceeds
15 MB or both dimensions are known AND NONZERO with one of them below the
640×480 minimum; an image of exactly 15 MB, exactly 640×480, or with a missing
dimension is valid. -/
theorem c9_valid_for_analysis_characterization (m : ImageMetadata) :
    (m.is_valid_for_analysis = false ↔
      (15 * 1024 * 1024 < m.file_size_bytes ∨
       ∃ w h, m.width_px = some w ∧ m.height_px = some h ∧ w ≠ 0 ∧ h ≠ 0 ∧
         (w < 640 ∨ h < 480))) ∧
    (m.file_size_bytes ≤ 15 * 1024 * 1024 →
      (m.width_px = none ∨ m.height_px = none) → m.is_valid_for_analysis = true) ∧
    (m.file_size_bytes ≤ 15 * 1024 * 1024 → m.width_px = some 640 →
      m.height_px = some 480 → m.is_valid_for_analysis = true) := by
  obtain ⟨iid, did, cid, sb, sk, uid, ca, ua, fs, ct, wopt, hopt⟩ := m
  refine ⟨?_, ?_, ?_⟩
  · cases wopt with
    | none =>
      simp [ImageMetadata.is_valid_for_analysis]
    | some w =>
      cases hopt with
      | none =>
        simp [ImageMetadata.is_valid_for_analysis]
      | some hh =>
        simp only [ImageMetadata.is_valid_for_analysis]
        split_ifs with hfs hz hdim <;>
          simp_all [Bool.and_eq_true, bne_iff_ne, Bool.or_eq_true,
            decide_eq_true_eq]
  · intro hfs hnone
    rcases hnone with hw | hh <;>
      simp_all [ImageMetadata.is_valid_for_analysis]
  · intro hfs hw hh
    subst hw
    subst hh
    simp_all [ImageMetadata.is_valid_for_analysis]

/-- Witness for C9's amended characterization: a small image with unknown
dimensions is valid. -/
theorem c9_witness : sampleMeta.is_valid_for_analysis = true :=
  (c9_valid_for_analysis_characterization sampleMeta).2.1 (by decide) (Or.inl rfl)

/-- A string with a non-empty left part of an append is non-empty. -/
lemma append_ne_empty_of_left (s t : String) (h : s ≠ "") : s ++ t ≠ "" := by
  intro he
  apply h
  have hlen : (s ++ t).length = 0 := by rw [he]; rfl
  rw [String.length_append] at hlen
  have hs : s.length = 0 := by omega
  cases s with
  | mk data =>
    cases data with
    | nil => rfl
    | cons c cs => simp [String.length] at hs

/-- The auto-generated reason is never the empty string. -/
lemma generate_reason_ne_empty (st : CleanlinessStatus) (oc : ConfidenceScore)
    (neg : List DetectedLabel) : AuditResult.generate_reason st oc neg ≠ "" := by
  unfold AuditResult.generate_reason
  split_ifs
  · decide
  · exact append_ne_empty_of_left _ _ (append_ne_empty_of_left _ _ (by decide))
  · decide
  · exact append_ne_empty_of_left _ _ (by decide)
  · decide

/-- The invariant of C7: `negative_labels` is the filter of `detected_labels`
and the reason is a non-empty string. -/
def auditInv (a : AuditResult) : Prop :=
  a.negative_labels = a.detected_labels.filter (fun l => l.is_negative) ∧
  ∃ s, a.reason = some s ∧ s ≠ ""

/-- One manual-override call, uncurried over its argument tuple. -/
def overrideCall (a : AuditResult) (c : String × Bool × String × Int) : AuditResult :=
  a.apply_manual_override c.1 c.2.1 c.2.2.1 c.2.2.2

/-- Construction establishes the invariant, whatever arguments are supplied. -/
lemma auditInv_mk (im : ImageMetadata) (dl : List DetectedLabel) (oc : ConfidenceScore)
    (st : CleanlinessStatus) (aid : Nat) (negArg : List DetectedLabel)
    (reasonArg : Option String) (ts : Int) (rb : Option String) (ra : Option Int)
    (mo : Option Bool) (vp : String) (mv : Option String) :
    auditInv (mkAuditResult im dl oc st aid negArg reasonArg ts rb ra mo vp mv) := by
  refine ⟨rfl, ?_⟩
  cases reasonArg with
  | none =>
    exact ⟨_, rfl, generate_reason_ne_empty st oc (dl.filter (fun l => l.is_negative))⟩
  | some r =>
    by_cases hr : r = ""
    · refine ⟨_, ?_, generate_reason_ne_empty st oc (dl.filter (fun l => l.is_negative))⟩
      simp [mkAuditResult, hr]
    · exact ⟨r, by simp [mkAuditResult, hr], hr⟩

/-- A manual override preserves the invariant. -/
lemma auditInv_override (a : AuditResult) (c : String × Bool × String × Int)
    (h : auditInv a) : auditInv (overrideCall a c) := by
  obtain ⟨h1, _, _, _⟩ := h
  exact ⟨h1, ⟨"Manual override: " ++ c.2.2.1, rfl,
    append_ne_empty_of_left _ _ (by decide)⟩⟩

/-- Any sequence of manual overrides preserves the invariant. -/
lemma auditInv_foldl (calls : List (String × Bool × String × Int)) (a : AuditResult)
    (h : auditInv a) : auditInv (calls.foldl overrideCall a) := by
  induction calls generalizing a with
  | nil => exact h
  | cons c cs ih => exact ih _ (auditInv_override a c h)

/-- C7: immediately after construction (whatever `negative_labels` and
`reason` arguments were supplied) and after any sequence of
`apply_manual_override` calls, `negative_labels` equals the filter of
`detected_labels` on `is_negative` and the reason is a non-empty string. -/
theorem c7_audit_result_invariants (im : ImageMetadata) (dl : List DetectedLabel)
    (oc : ConfidenceScore) (st : CleanlinessStatus) (aid : Nat)
    (negArg : List DetectedLabel) (reasonArg : Option String) (ts : Int)
    (rb : Option String) (ra : Option Int) (mo : Option Bool) (vp : String)
    (mv : Option String) (calls : List (String × Bool × String × Int)) :
    (calls.foldl overrideCall
        (mkAuditResult im dl oc st aid negArg reasonArg ts rb ra mo vp mv)).negative_labels =
      (calls.foldl overrideCall
        (mkAuditResult im dl oc st aid negArg reasonArg ts rb ra mo vp mv)).detected_labels.filter
        (fun l => l.is_negative) ∧
    ∃ s, (calls.foldl overrideCall
        (mkAuditResult im dl oc st aid negArg reasonArg ts rb ra mo vp mv)).reason =
      some s ∧ s ≠ "" :=
  auditInv_foldl calls _ (auditInv_mk im dl oc st aid negArg reasonArg ts rb ra mo vp mv)
